import Mathlib

/-!
Verification development for the weight_uncertainty repository
(weight_uncertainty/util/model.py).

The graph-construction code of model.py is embedded shallowly: the
numerical formulas built into the TensorFlow graph are written as Lean
functions on exact numbers (rationals where the computation is rational,
reals where logarithms, exponentials or square roots appear), and the
graph-wiring facts (branch selection, collection registration, shape
bookkeeping) are embedded as functions on explicit Lean data.
-/

set_option autoImplicit false

namespace WeightUncertainty

/-! ### The annealing helper, model.py lines 186-193

The function ramp_and_clip computes
  value_start + (value_stop - value_start)
    * clip_by_value(1/(step_stop - step_start) * (t - step_start), 0, 1)
where clip_by_value(x, lo, hi) = min(max(x, lo), hi) is TensorFlow's
clip_by_value.  All arithmetic is embedded over the rationals. -/

/-- TensorFlow clip_by_value: clamp x into the interval from lo to hi. -/
def clip_by_value (x lo hi : ℚ) : ℚ := min (max x lo) hi

/-- Embedding of ramp_and_clip (model.py lines 189-191) for a given
resolved global step t. -/
def ramp_and_clip (value_start value_stop step_start step_stop t : ℚ) : ℚ :=
  value_start + (value_stop - value_start) *
    clip_by_value (1 / (step_stop - step_start) * (t - step_start)) 0 1

/-- Host-language errors that the graph-construction code can raise. -/
inductive PyError where
  | zeroDivision
  | invalidConfiguration
deriving DecidableEq

/-- Embedding of ramp_and_clip including the host-language behaviour of the
subexpression 1./(step_stop - step_start): when step_stop - step_start is
zero, Python raises ZeroDivisionError before any graph node is built.
There is no validation of step_start against step_stop in the source. -/
def ramp_and_clip_checked (value_start value_stop step_start step_stop t : ℚ) :
    Except PyError ℚ :=
  if step_stop - step_start = 0 then Except.error PyError.zeroDivision
  else Except.ok (ramp_and_clip value_start value_stop step_start step_stop t)

/-! ### Resolution of the global_step argument, model.py lines 187-188

The source reads: if not global_step, replace it by the process-wide
counter from get_or_create_global_step().  Python truthiness makes both
None and 0 falsy, so a supplied step of 0 is ignored. -/

/-- Embedding of the global_step resolution (model.py lines 187-188): a
missing argument or the falsy value 0 is replaced by the process-wide
training-step counter. -/
def resolve_global_step (arg : Option ℤ) (counter : ℤ) : ℤ :=
  match arg with
  | Option.none => counter
  | Option.some n => if n = 0 then counter else n

/-- Full call of ramp_and_clip: resolve the global step, then evaluate the
ramp at the resolved step. -/
def ramp_and_clip_with_step (value_start value_stop step_start step_stop : ℚ)
    (arg : Option ℤ) (counter : ℤ) : ℚ :=
  ramp_and_clip value_start value_stop step_start step_stop
    ((resolve_global_step arg counter : ℤ) : ℚ)

/-! ### The KL weighting pi, model.py lines 44-47

The source assigns num_batches := conf.max_steps, leaves the static
weighting pi = 1/num_batches commented out, and sets
pi = ramp_and_clip(1/1000., 1/10., 3000, 20000, global_step=None). -/

/-- Embedding of the KL weighting actually built (model.py lines 44-46),
as a function of conf.max_steps and the resolved global step t.  The
num_batches binding mirrors line 44; the ramp does not read it. -/
def pi_used (max_steps : ℕ) (t : ℚ) : ℚ :=
  let _num_batches := max_steps
  ramp_and_clip (1/1000) (1/10) 3000 20000 t

/-- The commented-out alternative weighting of model.py line 45. -/
def pi_commented_out (max_steps : ℕ) : ℚ := 1 / (max_steps : ℚ)

/-! ### Gradient clipping, model.py lines 67-70

TensorFlow's clip_by_global_norm(t_list, clip_norm) computes
use_norm = global_norm(t_list) = sqrt(sum of squares of all entries),
rescales every entry by clip_norm * min(1/use_norm, 1/clip_norm), which
for positive norms equals clip_norm / max(use_norm, clip_norm), and
returns the pair (clipped list, use_norm) - the second component is the
global norm of the INPUT list, computed before any rescaling.
tf.global_norm(t_list) is the same sqrt of the sum of squares.
Gradient tensors are embedded flattened into a single list of reals. -/

/-- TensorFlow global_norm: the L2 norm of all entries of the list. -/
noncomputable def global_norm (gs : List ℝ) : ℝ :=
  Real.sqrt ((gs.map (fun g => g * g)).sum)

/-- TensorFlow clip_by_global_norm: rescale so the global norm does not
exceed clip_norm, and return the input's global norm as second component. -/
noncomputable def clip_by_global_norm (gs : List ℝ) (clip_norm : ℝ) :
    List ℝ × ℝ :=
  (gs.map (fun g => g * (clip_norm / max (global_norm gs) clip_norm)),
   global_norm gs)

/-- Embedding of model.py lines 67-70: the gradient list used for the
training operation and the recorded grads_norm scalar. -/
noncomputable def model_grads_and_norm (grads : List ℝ) (clip_norm : ℝ) :
    List ℝ × ℝ :=
  if 0 < clip_norm then clip_by_global_norm grads clip_norm
  else (grads, global_norm grads)

/-! ### Total bits, model.py lines 81-87

The source starts an accumulator at 0.0, adds reduce_mean(var) for every
tensor var in the all_sigma collection, divides the accumulated sum by
the number of tensors in the collection, and takes -log(.)/log(2).
The collection is embedded as a list of flattened tensors. -/

/-- TensorFlow reduce_mean of a flattened tensor. -/
def reduce_mean (v : List ℚ) : ℚ := v.sum / (v.length : ℚ)

/-- The argument of the logarithm in total_bits (model.py lines 81-86):
the accumulated sum of per-tensor means, divided by the number of
registered sigma tensors. -/
def sigma_mean (sigma_collection : List (List ℚ)) : ℚ :=
  ((sigma_collection.map reduce_mean).foldl (fun a b => a + b) 0) /
    (sigma_collection.length : ℚ)

/-- Embedding of the total_bits diagnostic (model.py line 86):
minus the base-2 logarithm of sigma_mean. -/
noncomputable def total_bits (sigma_collection : List (List ℚ)) : ℝ :=
  -Real.log ((sigma_mean sigma_collection : ℚ) : ℝ) / Real.log 2

/-- Stated from the claim's words, for comparison with total_bits: the
elementwise average over all scale entries across all tensors. -/
def elementwise_mean (sigma_collection : List (List ℚ)) : ℚ :=
  ((sigma_collection.map List.sum).sum) /
    (((sigma_collection.map List.length).sum : ℕ) : ℚ)

/-- Stated from the claim's words: minus log2 of the elementwise average
of every registered scale value. -/
noncomputable def total_bits_claim (sigma_collection : List (List ℚ)) : ℝ :=
  -Real.log ((elementwise_mean sigma_collection : ℚ) : ℝ) / Real.log 2

/-! ### Loss composition, model.py lines 30-47

Logits are embedded per batch row as a list of reals; the layer KL terms
(opaque values of util_layers, which is outside this file's source) are
embedded as a list of reals, one per recorded layer in self.layers. -/

/-- TensorFlow reduce_mean of a vector of reals. -/
noncomputable def reduce_mean_r (v : List ℝ) : ℝ := v.sum / (v.length : ℝ)

/-- TensorFlow sparse_softmax_cross_entropy_with_logits for one example:
log of the sum of exponentials of the logits minus the logit of the label. -/
noncomputable def sparse_softmax_cross_entropy (logits : List ℝ) (label : ℕ) : ℝ :=
  Real.log ((logits.map Real.exp).sum) - logits.getD label 0

/-- Embedding of the classification loss (model.py lines 31-32): the mean
over the batch of the per-example cross entropies. -/
noncomputable def classification_loss (logitsB : List (List ℝ))
    (labels : List ℕ) : ℝ :=
  reduce_mean_r (List.zipWith sparse_softmax_cross_entropy logitsB labels)

/-- Embedding of the KL loss accumulation (model.py lines 36-38): an
accumulator starting at 0.0 to which each recorded layer's get_kl value
is added in order. -/
noncomputable def kl_loss_total (kls : List ℝ) : ℝ :=
  kls.foldl (fun a b => a + b) 0

/-- Embedding of the total loss (model.py line 47). -/
noncomputable def total_loss (logitsB : List (List ℝ)) (labels : List ℕ)
    (kls : List ℝ) (p : ℝ) : ℝ :=
  classification_loss logitsB labels + p * kl_loss_total kls

/-- Softmax probability of one class, used to restate the cross entropy. -/
noncomputable def softmax_prob (logits : List ℝ) (label : ℕ) : ℝ :=
  Real.exp (logits.getD label 0) / (logits.map Real.exp).sum

/-! ### Encoder selection and input reshaping, model.py lines 17-24, 115-119 -/

/-- The encoder branch chosen at line 21-24. -/
inductive EncoderKind where
  | cnn
  | rnn
deriving DecidableEq

/-- Hard-coded flag of model.py line 18. -/
def use_rnn : Bool := false

/-- Embedding of the branch selection (model.py lines 21-24): the flag is
hard-coded, so size_sample is not consulted. -/
def chosen_encoder (size_sample : List ℕ) : EncoderKind :=
  let _ := size_sample
  if use_rnn then EncoderKind.rnn else EncoderKind.cnn

/-- Embedding of is_time_series (model.py line 17). -/
def is_time_series (size_sample : List ℕ) : Bool := size_sample.length == 1

/-- Shape of the input placeholder (model.py line 11): an unbounded batch
axis followed by the per-example shape; the batch axis is carried as an
explicit parameter. -/
def input_shape (batch : ℕ) (size_sample : List ℕ) : List ℕ :=
  batch :: size_sample

/-- Shape-level tf.expand_dims: insert a singleton axis at the given
position. -/
def expand_dims (shape : List ℕ) (axis : ℕ) : List ℕ :=
  shape.take axis ++ 1 :: shape.drop axis

/-- Embedding of the CNN input preparation (model.py lines 116-119): for
time-series input, expand_dims at axis 2 and then at axis 3; otherwise
the placeholder is passed through unchanged. -/
def cnn_input_shape (batch : ℕ) (size_sample : List ℕ) : List ℕ :=
  if is_time_series size_sample then
    expand_dims (expand_dims (input_shape batch size_sample) 2) 3
  else input_shape batch size_sample

/-! ### The restore_vars registry, model.py lines 173-183 -/

/-- The tensors that add_to_collections registers. -/
inductive TensorRef where
  | input
  | target
  | predictions
  | classification_loss
  | accuracy
deriving DecidableEq

/-- TensorFlow add_to_collection: append one value to a collection. -/
def add_to_collection (coll : List TensorRef) (v : TensorRef) :
    List TensorRef :=
  coll ++ [v]

/-- Embedding of add*to*collections (model.py lines 178-183): the loop
registers, in order, the input placeholder, the target placeholder, the
predictions, the classification loss and the accuracy into the
restore_vars collection, which starts empty in a fresh graph. -/
def restore_vars_registered : List TensorRef :=
  [TensorRef.input, TensorRef.target, TensorRef.predictions,
   TensorRef.classification_loss, TensorRef.accuracy].foldl
    add_to_collection []

/-! ### Accuracy, model.py lines 74-76

tf.argmax along the class axis returns the index of the largest entry,
taking the first occurrence on ties.  decisions = argmax(logits, axis=1)
and accuracy = reduce_mean(cast(equal(decisions, targets), float32)). -/

/-- Index of the largest entry of a list of rationals, first occurrence on
ties (tf.argmax along the class axis, one batch row). -/
def argmax : List ℚ → ℕ
  | [] => 0
  | [_] => 0
  | x :: y :: ys =>
    if x < (y :: ys).getD (argmax (y :: ys)) 0 then argmax (y :: ys) + 1
    else 0

/-- TensorFlow cast of a boolean to a float. -/
def indicator_cast (b : Bool) : ℚ := if b then 1 else 0

/-- Embedding of the accuracy tensor (model.py lines 75-76). -/
def accuracy (logitsB : List (List ℚ)) (targets : List ℕ) : ℚ :=
  reduce_mean
    (List.zipWith (fun l t => indicator_cast (argmax l == t)) logitsB targets)

/-! ### Helper lemmas about the annealing ramp -/

/-- Before the ramp starts the coefficient is pinned at value_start. -/
theorem ramp_of_le_start (vs vp ss sp t : ℚ) (h : ss < sp) (ht : t ≤ ss) :
    ramp_and_clip vs vp ss sp t = vs := by
  have hd : (0:ℚ) < sp - ss := by linarith
  have hx : 1 / (sp - ss) * (t - ss) ≤ 0 :=
    mul_nonpos_of_nonneg_of_nonpos (by positivity) (by linarith)
  unfold ramp_and_clip clip_by_value
  rw [max_eq_right hx, min_eq_left (by norm_num : (0:ℚ) ≤ 1)]
  ring

/-- After the ramp ends the coefficient is pinned at value_stop. -/
theorem ramp_of_stop_le (vs vp ss sp t : ℚ) (h : ss < sp) (ht : sp ≤ t) :
    ramp_and_clip vs vp ss sp t = vp := by
  have hd : (0:ℚ) < sp - ss := by linarith
  have hx : (1:ℚ) ≤ 1 / (sp - ss) * (t - ss) := by
    rw [one_div, inv_mul_eq_div, le_div_iff₀ hd]
    linarith
  unfold ramp_and_clip clip_by_value
  rw [max_eq_left (le_trans (by norm_num) hx), min_eq_right hx]
  ring

/-- In the interior of the ramp the clip is inactive and the coefficient is
the linear interpolation. -/
theorem ramp_of_mid (vs vp ss sp t : ℚ) (_h : ss < sp) (h1 : ss < t)
    (h2 : t < sp) :
    ramp_and_clip vs vp ss sp t = vs + (vp - vs) * (t - ss) / (sp - ss) := by
  have hd : (0:ℚ) < sp - ss := by linarith
  have hx0 : (0:ℚ) ≤ 1 / (sp - ss) * (t - ss) :=
    mul_nonneg (by positivity) (by linarith)
  have hx1 : 1 / (sp - ss) * (t - ss) ≤ 1 := by
    rw [one_div, inv_mul_eq_div, div_le_one hd]
    linarith
  unfold ramp_and_clip clip_by_value
  rw [max_eq_left hx0, min_eq_left hx1]
  rw [one_div, inv_mul_eq_div]
  ring

/-- The interpolation is strictly increasing in the step when the ramp goes
upward. -/
theorem ramp_strict_mono (vs vp ss sp t1 t2 : ℚ) (h : ss < sp)
    (hv : vs < vp) (h1 : ss < t1) (h12 : t1 < t2) (h2 : t2 < sp) :
    ramp_and_clip vs vp ss sp t1 < ramp_and_clip vs vp ss sp t2 := by
  have hd : (0:ℚ) < sp - ss := by linarith
  rw [ramp_of_mid vs vp ss sp t1 h h1 (lt_trans h12 h2),
      ramp_of_mid vs vp ss sp t2 h (lt_trans h1 h12) h2]
  have hnum : (vp - vs) * (t1 - ss) < (vp - vs) * (t2 - ss) :=
    mul_lt_mul_of_pos_left (by linarith) (by linarith)
  exact add_lt_add_left ((div_lt_div_iff_of_pos_right hd).2 hnum) vs

/-! ### Claim C1 -/

/-- Claim C1, counterexample: the claim asserts strict monotonicity in t on
the open ramp interval for EVERY value_start and value_stop, but with
value_start = value_stop = 5, step_start = 0 < step_stop = 3 and interior
steps 1 < 2, the two results are equal, so the ramp is not strictly
increasing there. -/
theorem C1_counterexample :
    (0:ℚ) < 3 ∧ (0:ℚ) < 1 ∧ (1:ℚ) < 2 ∧ (2:ℚ) < 3 ∧
    ¬ ramp_and_clip 5 5 0 3 1 < ramp_and_clip 5 5 0 3 2 := by
  refine ⟨by norm_num, by norm_num, by norm_num, by norm_num, ?_⟩
  have h1 : ramp_and_clip 5 5 0 3 1 = 5 := by
    unfold ramp_and_clip clip_by_value
    norm_num
  have h2 : ramp_and_clip 5 5 0 3 2 = 5 := by
    unfold ramp_and_clip clip_by_value
    norm_num
  rw [h1, h2]
  exact lt_irrefl 5

/-- Claim C1, amended: for every value_start, value_stop and
step_start < step_stop, ramp_and_clip returns value_start for
t at or before step_start, value_stop for t at or after step_stop, and the
exact linear interpolation strictly between; on that open interval it is
strictly increasing in t provided value_start < value_stop. -/
theorem C1_ramp_and_clip (vs vp ss sp : ℚ) (h : ss < sp) :
    (∀ t, t ≤ ss → ramp_and_clip vs vp ss sp t = vs) ∧
    (∀ t, sp ≤ t → ramp_and_clip vs vp ss sp t = vp) ∧
    (∀ t, ss < t → t < sp →
      ramp_and_clip vs vp ss sp t = vs + (vp - vs) * (t - ss) / (sp - ss)) ∧
    (vs < vp → ∀ t1 t2, ss < t1 → t1 < t2 → t2 < sp →
      ramp_and_clip vs vp ss sp t1 < ramp_and_clip vs vp ss sp t2) := by
  refine ⟨fun t ht => ramp_of_le_start vs vp ss sp t h ht,
          fun t ht => ramp_of_stop_le vs vp ss sp t h ht,
          fun t h1 h2 => ramp_of_mid vs vp ss sp t h h1 h2,
          fun hv t1 t2 h1 h12 h2 =>
            ramp_strict_mono vs vp ss sp t1 t2 h hv h1 h12 h2⟩

/-- Claim C1, witness: the model's own invocation parameters, evaluated at
steps 2000, 25000, 11500, and at the interior pair 5000 < 6000. -/
theorem C1_witness :
    ramp_and_clip (1/1000) (1/10) 3000 20000 2000 = 1/1000 ∧
    ramp_and_clip (1/1000) (1/10) 3000 20000 25000 = 1/10 ∧
    ramp_and_clip (1/1000) (1/10) 3000 20000 11500 =
      1/1000 + (1/10 - 1/1000) * (11500 - 3000) / (20000 - 3000) ∧
    ramp_and_clip (1/1000) (1/10) 3000 20000 5000 <
      ramp_and_clip (1/1000) (1/10) 3000 20000 6000 := by
  have h := C1_ramp_and_clip (1/1000) (1/10) 3000 20000 (by norm_num)
  exact ⟨h.1 2000 (by norm_num), h.2.1 25000 (by norm_num),
         h.2.2.1 11500 (by norm_num) (by norm_num),
         h.2.2.2 (by norm_num) 5000 6000 (by norm_num) (by norm_num)
           (by norm_num)⟩

/-! ### Claim C4 -/

/-- Claim C4, counterexample: calling ramp_and_clip with
step_start = step_stop = 5 fails with the host language's division-by-zero
error, not with an InvalidConfiguration error; the source contains no
configuration validation. -/
theorem C4_counterexample :
    ramp_and_clip_checked 1 2 5 5 0 = Except.error PyError.zeroDivision ∧
    ramp_and_clip_checked 1 2 5 5 0 ≠
      Except.error PyError.invalidConfiguration := by
  constructor
  · unfold ramp_and_clip_checked
    norm_num
  · unfold ramp_and_clip_checked
    norm_num
    decide

/-- Claim C4, amended: invoking ramp_and_clip with step_stop = step_start
fails at setup, before any result is produced, but with the host
language's ZeroDivisionError from the expression
1./(step_stop - step_start), not with an InvalidConfiguration error;
with distinct bounds the call succeeds and returns the ramp value. -/
theorem C4_zero_division (vs vp s t : ℚ) :
    ramp_and_clip_checked vs vp s s t = Except.error PyError.zeroDivision ∧
    (∀ a b : ℚ, a ≠ b →
      ramp_and_clip_checked vs vp a b t =
        Except.ok (ramp_and_clip vs vp a b t)) := by
  constructor
  · unfold ramp_and_clip_checked
    norm_num
  · intro a b hab
    unfold ramp_and_clip_checked
    rw [if_neg]
    intro hz
    exact hab (by linarith)

/-- Claim C4, witness: the degenerate and the non-degenerate call at
concrete arguments. -/
theorem C4_witness :
    ramp_and_clip_checked 1 2 7 7 0 = Except.error PyError.zeroDivision ∧
    ramp_and_clip_checked 1 2 3000 20000 0 =
      Except.ok (ramp_and_clip 1 2 3000 20000 0) := by
  have h := C4_zero_division 1 2 7 0
  exact ⟨h.1, h.2 3000 20000 (by norm_num)⟩

/-! ### Claim C7 -/

/-- Claim C7, counterexample: the KL weighting built at model.py line 46 is
identical for max_steps = 100 and max_steps = 20000 at the same resolved
step 12345, and it does not equal 1/max_steps, so the weighting neither
depends on nor divides by conf.max_steps. -/
theorem C7_counterexample :
    pi_used 100 12345 = pi_used 20000 12345 ∧
    pi_used 100 12345 ≠ pi_commented_out 100 := by
  constructor
  · rfl
  · unfold pi_used pi_commented_out ramp_and_clip clip_by_value
    norm_num

/-- Claim C7, amended: conf.max_steps is bound to num_batches at model.py
line 44, but the static weighting 1/num_batches is commented out; the
weighting actually applied to the KL loss is
ramp_and_clip(1/1000, 1/10, 3000, 20000) and is independent of max_steps,
staying at 1/1000 up to step 3000 and at 1/10 from step 20000 on. -/
theorem C7_pi_independent_of_max_steps (m1 m2 : ℕ) (t : ℚ) :
    pi_used m1 t = pi_used m2 t ∧
    pi_used m1 t = ramp_and_clip (1/1000) (1/10) 3000 20000 t ∧
    (t ≤ 3000 → pi_used m1 t = 1/1000) ∧
    (20000 ≤ t → pi_used m1 t = 1/10) := by
  refine ⟨rfl, rfl, ?_, ?_⟩
  · intro ht
    exact ramp_of_le_start (1/1000) (1/10) 3000 20000 t (by norm_num) ht
  · intro ht
    exact ramp_of_stop_le (1/1000) (1/10) 3000 20000 t (by norm_num) ht

/-- Claim C7, witness: two different max_steps values at step 0, and the
anchor values at steps 0 and 25000. -/
theorem C7_witness :
    pi_used 100 0 = pi_used 777 0 ∧
    pi_used 100 0 = 1/1000 ∧
    pi_used 100 25000 = 1/10 := by
  exact ⟨(C7_pi_independent_of_max_steps 100 777 0).1,
         (C7_pi_independent_of_max_steps 100 777 0).2.2.1 (by norm_num),
         (C7_pi_independent_of_max_steps 100 777 25000).2.2.2 (by norm_num)⟩

/-! ### Claim C10 -/

/-- Claim C10: a falsy global_step argument (absent, or the number 0) is
ignored and the process-wide training-step counter is used instead, so the
step cannot be pinned with a falsy value; a nonzero (truthy) argument is
used as given. -/
theorem C10_falsy_global_step (vs vp ss sp : ℚ) (c n : ℤ) :
    resolve_global_step Option.none c = c ∧
    resolve_global_step (Option.some 0) c = c ∧
    (n ≠ 0 → resolve_global_step (Option.some n) c = n) ∧
    ramp_and_clip_with_step vs vp ss sp (Option.some 0) c =
      ramp_and_clip_with_step vs vp ss sp Option.none c := by
  refine ⟨rfl, by simp [resolve_global_step], ?_, ?_⟩
  · intro hn
    simp [resolve_global_step, hn]
  · unfold ramp_and_clip_with_step
    simp [resolve_global_step]

/-- Claim C10, witness: with the model's ramp parameters, a supplied step
of 0 is overridden by a counter at 20000, and a truthy step 5 is used as
given. -/
theorem C10_witness :
    resolve_global_step (Option.some 0) 20000 = 20000 ∧
    resolve_global_step (Option.some 5) 20000 = 5 ∧
    ramp_and_clip_with_step (1/1000) (1/10) 3000 20000 (Option.some 0) 20000 =
      ramp_and_clip_with_step (1/1000) (1/10) 3000 20000 Option.none 20000 := by
  have h := C10_falsy_global_step (1/1000) (1/10) 3000 20000 20000 5
  exact ⟨h.2.1, h.2.2.1 (by norm_num), h.2.2.2⟩

/-! ### Helper lemmas about the global norm and clipping -/

/-- Sum of squares of a list of reals is nonnegative. -/
theorem sumsq_nonneg (gs : List ℝ) : 0 ≤ (gs.map (fun g => g * g)).sum := by
  induction gs with
  | nil => simp
  | cons a t ih =>
    simp only [List.map_cons, List.sum_cons]
    exact add_nonneg (mul_self_nonneg a) ih

/-- The global norm is nonnegative. -/
theorem global_norm_nonneg (gs : List ℝ) : 0 ≤ global_norm gs :=
  Real.sqrt_nonneg _

/-- Scaling every entry scales the sum of squares by the square of the
factor. -/
theorem sumsq_map_mul (gs : List ℝ) (s : ℝ) :
    ((gs.map (fun g => g * s)).map (fun g => g * g)).sum =
      s * s * (gs.map (fun g => g * g)).sum := by
  induction gs with
  | nil => simp
  | cons a t ih =>
    simp only [List.map_cons, List.sum_cons, ih]
    ring

/-- Scaling every entry scales the global norm by the absolute value of
the factor. -/
theorem global_norm_map_mul (gs : List ℝ) (s : ℝ) :
    global_norm (gs.map (fun g => g * s)) = |s| * global_norm gs := by
  unfold global_norm
  rw [sumsq_map_mul, Real.sqrt_mul (mul_self_nonneg s),
      Real.sqrt_mul_self_eq_abs]

/-- With a positive threshold, the recorded second component is the raw
global norm of the input list. -/
theorem grads_norm_recorded (gs : List ℝ) (c : ℝ) (hc : 0 < c) :
    (model_grads_and_norm gs c).2 = global_norm gs := by
  unfold model_grads_and_norm clip_by_global_norm
  rw [if_pos hc]

/-- With a positive threshold and a raw norm within the threshold, the
gradient list is unchanged. -/
theorem grads_unchanged (gs : List ℝ) (c : ℝ) (hc : 0 < c)
    (hle : global_norm gs ≤ c) :
    (model_grads_and_norm gs c).1 = gs := by
  unfold model_grads_and_norm clip_by_global_norm
  rw [if_pos hc]
  simp only [max_eq_right hle, div_self (ne_of_gt hc)]
  simp

/-- With a positive threshold and a raw norm above the threshold, the
clipped list's global norm is exactly the threshold. -/
theorem grads_clipped_norm (gs : List ℝ) (c : ℝ) (hc : 0 < c)
    (hlt : c < global_norm gs) :
    global_norm (model_grads_and_norm gs c).1 = c := by
  have hgn : 0 < global_norm gs := lt_trans hc hlt
  unfold model_grads_and_norm clip_by_global_norm
  rw [if_pos hc]
  simp only [max_eq_left (le_of_lt hlt)]
  rw [global_norm_map_mul, abs_of_pos (div_pos hc hgn)]
  field_simp

/-- With a nonpositive threshold, no rescaling occurs and the raw norm is
recorded. -/
theorem grads_noclip (gs : List ℝ) (c : ℝ) (hc : ¬ 0 < c) :
    model_grads_and_norm gs c = (gs, global_norm gs) := by
  unfold model_grads_and_norm
  rw [if_neg hc]

/-- The global norm of the list holding 3 and 4 is 5. -/
theorem global_norm_three_four : global_norm [3, 4] = 5 := by
  have h : global_norm [3, 4] = Real.sqrt 25 := by
    unfold global_norm
    norm_num
  rw [h, show (25:ℝ) = 5 ^ 2 by norm_num,
      Real.sqrt_sq (by norm_num : (0:ℝ) ≤ 5)]

/-! ### Claim C2 -/

/-- Claim C2, counterexample: with gradients of entries 3 and 4 (raw
global norm 5) and clip_norm 1, the recorded grads_norm is 5, the raw
pre-clip norm, while the post-clip global norm is 1; so the recorded
scalar is not the post-clip norm, contrary to the claim. -/
theorem C2_counterexample :
    (model_grads_and_norm [3, 4] 1).2 = 5 ∧
    global_norm (model_grads_and_norm [3, 4] 1).1 = 1 ∧
    (model_grads_and_norm [3, 4] 1).2 ≠
      global_norm (model_grads_and_norm [3, 4] 1).1 := by
  have h1 : (model_grads_and_norm [3, 4] 1).2 = 5 := by
    rw [grads_norm_recorded [3, 4] 1 (by norm_num), global_norm_three_four]
  have h2 : global_norm (model_grads_and_norm [3, 4] 1).1 = 1 := by
    apply grads_clipped_norm [3, 4] 1 (by norm_num)
    rw [global_norm_three_four]
    norm_num
  refine ⟨h1, h2, ?_⟩
  rw [h1, h2]
  norm_num

/-- Claim C2, amended: if conf.clip_norm > 0 the gradient list is rescaled
so its global L2 norm does not exceed clip_norm (the post-clip norm equals
clip_norm when the raw norm exceeded it, and the list is unchanged when
the raw norm was already within clip_norm), but the recorded grads_norm
monitoring scalar is the RAW pre-clip global norm in both cases; if
conf.clip_norm <= 0 no rescaling occurs and the recorded norm is the raw
global norm. -/
theorem C2_grad_clipping (gs : List ℝ) (c : ℝ) :
    (0 < c →
      (model_grads_and_norm gs c).2 = global_norm gs ∧
      (global_norm gs ≤ c → (model_grads_and_norm gs c).1 = gs) ∧
      (c < global_norm gs →
        global_norm (model_grads_and_norm gs c).1 = c)) ∧
    (¬ 0 < c → model_grads_and_norm gs c = (gs, global_norm gs)) := by
  constructor
  · intro hc
    exact ⟨grads_norm_recorded gs c hc,
           fun hle => grads_unchanged gs c hc hle,
           fun hlt => grads_clipped_norm gs c hc hlt⟩
  · intro hc
    exact grads_noclip gs c hc

/-- Claim C2, witness: the amended statement applied to the gradient list
with entries 3 and 4, against thresholds 1 (clipping active), 7 (raw norm
within threshold) and 0 (clipping disabled). -/
theorem C2_witness :
    (model_grads_and_norm [3, 4] 1).2 = global_norm [3, 4] ∧
    global_norm (model_grads_and_norm [3, 4] 1).1 = 1 ∧
    (model_grads_and_norm [3, 4] 7).1 = [3, 4] ∧
    model_grads_and_norm [3, 4] 0 = ([3, 4], global_norm [3, 4]) := by
  have h1 := (C2_grad_clipping [3, 4] 1).1 (by norm_num)
  have h7 := (C2_grad_clipping [3, 4] 7).1 (by norm_num)
  have h0 := (C2_grad_clipping [3, 4] 0).2 (by norm_num)
  refine ⟨h1.1, h1.2.2 ?_, h7.2.1 ?_, h0⟩
  · rw [global_norm_three_four]
    norm_num
  · rw [global_norm_three_four]
    norm_num

/-! ### Helper lemmas about means and the total-bits formula -/

/-- Left fold of addition from an accumulator is the accumulator plus the
list sum. -/
theorem foldl_add_eq_sum {M : Type} [AddCommMonoid M] (l : List M) (a : M) :
    l.foldl (fun x y => x + y) a = a + l.sum := by
  induction l generalizing a with
  | nil => simp
  | cons b t ih => simp [ih, add_assoc]

/-- When every tensor has n entries, the total entry count is n times the
number of tensors. -/
theorem length_map_sum_const (c : List (List ℚ)) (n : ℕ)
    (hlen : ∀ v ∈ c, v.length = n) :
    (c.map List.length).sum = n * c.length := by
  induction c with
  | nil => simp
  | cons a t ih =>
    simp only [List.map_cons, List.sum_cons, List.length_cons]
    rw [hlen a (List.mem_cons_self a t),
        ih (fun v hv => hlen v (List.mem_cons_of_mem a hv))]
    ring

/-- When every tensor has n entries, the sum of the per-tensor means is
the sum of all entries divided by n. -/
theorem map_reduce_mean_sum (c : List (List ℚ)) (n : ℕ)
    (hlen : ∀ v ∈ c, v.length = n) :
    (c.map reduce_mean).sum = (c.map List.sum).sum / (n : ℚ) := by
  induction c with
  | nil => simp
  | cons a t ih =>
    simp only [List.map_cons, List.sum_cons]
    rw [ih (fun v hv => hlen v (List.mem_cons_of_mem a hv)), reduce_mean,
        hlen a (List.mem_cons_self a t), div_add_div_same]

/-- When every registered tensor has the same entry count, the code's mean
of per-tensor means agrees with the elementwise mean of all entries. -/
theorem sigma_mean_eq_elementwise (c : List (List ℚ)) (n : ℕ)
    (hlen : ∀ v ∈ c, v.length = n) :
    sigma_mean c = elementwise_mean c := by
  unfold sigma_mean elementwise_mean
  rw [foldl_add_eq_sum, zero_add, map_reduce_mean_sum c n hlen,
      length_map_sum_const c n hlen]
  push_cast
  rw [div_div]

/-- Minus log of one half over log of two is one. -/
theorem neg_log_half_div_log_two : -Real.log ((1:ℝ)/2) / Real.log 2 = 1 := by
  rw [show ((1:ℝ)/2) = 2⁻¹ by norm_num, Real.log_inv, neg_neg,
      div_self (ne_of_gt (Real.log_pos (by norm_num)))]

/-! ### Claim C3 -/

/-- Claim C3, counterexample: with registered scale tensors of one entry 0
and of three entries 1 each, the code's total bits is
-log2((0 + 1)/2) = 1 (mean of per-tensor means), while -log2 of the
elementwise average 3/4 of all four entries is not 1; so total_bits is not
-log2 of the elementwise average across all entries. -/
theorem C3_counterexample :
    total_bits [[0], [1, 1, 1]] = 1 ∧
    total_bits_claim [[0], [1, 1, 1]] ≠ 1 ∧
    total_bits [[0], [1, 1, 1]] ≠ total_bits_claim [[0], [1, 1, 1]] := by
  have hs : sigma_mean [[0], [1, 1, 1]] = 1/2 := by
    norm_num [sigma_mean, reduce_mean]
  have he : elementwise_mean [[0], [1, 1, 1]] = 3/4 := by
    norm_num [elementwise_mean]
  have h1 : total_bits [[0], [1, 1, 1]] = 1 := by
    unfold total_bits
    rw [hs]
    push_cast
    exact neg_log_half_div_log_two
  have hclaim : total_bits_claim [[0], [1, 1, 1]] =
      -Real.log ((3:ℝ)/4) / Real.log 2 := by
    unfold total_bits_claim
    rw [he]
    push_cast
    rfl
  have hne : -Real.log ((3:ℝ)/4) / Real.log 2 ≠ 1 := by
    intro hEq
    have hl2 : (0:ℝ) < Real.log 2 := Real.log_pos (by norm_num)
    rw [div_eq_one_iff_eq (ne_of_gt hl2)] at hEq
    have hmono : Real.log ((1:ℝ)/2) < Real.log ((3:ℝ)/4) :=
      Real.log_lt_log (by norm_num) (by norm_num)
    have hhalf : Real.log ((1:ℝ)/2) = -Real.log 2 := by
      rw [show ((1:ℝ)/2) = 2⁻¹ by norm_num, Real.log_inv]
    linarith
  refine ⟨h1, ?_, ?_⟩
  · rw [hclaim]
    exact hne
  · rw [h1, hclaim]
    exact Ne.symm hne

/-- Claim C3, amended: the total_bits diagnostic equals -log2 of the mean
of the per-tensor means of the registered scale tensors; when every
registered tensor has the same (positive) number of entries - in
particular in the claim's examples - this coincides with -log2 of the
elementwise average of every registered scale value, and scales
[0.5, 0.5] give total bits 1.0 while scales [1.0, 1.0] give 0.0. -/
theorem C3_total_bits (c : List (List ℚ)) (n : ℕ) (_hc : c ≠ [])
    (_hn : 0 < n) (hlen : ∀ v ∈ c, v.length = n) :
    total_bits c = total_bits_claim c ∧
    total_bits [[1/2], [1/2]] = 1 ∧
    total_bits [[1], [1]] = 0 := by
  refine ⟨?_, ?_, ?_⟩
  · unfold total_bits total_bits_claim
    rw [sigma_mean_eq_elementwise c n hlen]
  · have hs : sigma_mean [[1/2], [1/2]] = 1/2 := by
      norm_num [sigma_mean, reduce_mean]
    unfold total_bits
    rw [hs]
    push_cast
    exact neg_log_half_div_log_two
  · have hs : sigma_mean [[1], [1]] = 1 := by
      norm_num [sigma_mean, reduce_mean]
    unfold total_bits
    rw [hs]
    push_cast
    simp [Real.log_one]

/-- Claim C3, witness: the amended statement applied to the example
collection of two single-entry tensors of value one half. -/
theorem C3_witness :
    total_bits [[1/2], [1/2]] = total_bits_claim [[1/2], [1/2]] ∧
    total_bits [[1/2], [1/2]] = 1 ∧
    total_bits [[1], [1]] = 0 := by
  have h := C3_total_bits [[1/2], [1/2]] 1 (by simp) (by norm_num) (by decide)
  exact ⟨h.1, h.2.1, h.2.2⟩

/-! ### Helper lemmas about the loss composition -/

/-- Sum of exponentials of a list is nonnegative. -/
theorem sum_map_exp_nonneg (l : List ℝ) : 0 ≤ (l.map Real.exp).sum := by
  induction l with
  | nil => simp
  | cons a t ih =>
    simp only [List.map_cons, List.sum_cons]
    exact add_nonneg (le_of_lt (Real.exp_pos a)) ih

/-- Sum of exponentials of a nonempty list is positive. -/
theorem sum_map_exp_pos (l : List ℝ) (h : l ≠ []) :
    0 < (l.map Real.exp).sum := by
  cases l with
  | nil => exact absurd rfl h
  | cons a t =>
    simp only [List.map_cons, List.sum_cons]
    exact add_pos_of_pos_of_nonneg (Real.exp_pos a) (sum_map_exp_nonneg t)

/-! ### Claim C5 -/

/-- Claim C5: the total training loss is the classification loss plus pi
times the KL loss, the KL loss accumulated in the layer loop equals the
sum of the get_kl values over the recorded layers, the classification loss
is the mean over the batch of the per-example cross entropies, and the
per-example term is the sparse softmax cross entropy, minus the log of the
softmax probability of the integer target. -/
theorem C5_loss_composition (logitsB : List (List ℝ)) (labels : List ℕ)
    (kls : List ℝ) (p : ℝ) :
    total_loss logitsB labels kls p =
      classification_loss logitsB labels + p * kls.sum ∧
    kl_loss_total kls = kls.sum ∧
    classification_loss logitsB labels =
      (List.zipWith sparse_softmax_cross_entropy logitsB labels).sum /
        ((List.zipWith sparse_softmax_cross_entropy logitsB labels).length :
          ℝ) ∧
    (∀ (logits : List ℝ) (label : ℕ), logits ≠ [] →
      sparse_softmax_cross_entropy logits label =
        -Real.log (softmax_prob logits label)) := by
  have hkl : kl_loss_total kls = kls.sum := by
    unfold kl_loss_total
    rw [foldl_add_eq_sum, zero_add]
  refine ⟨?_, hkl, rfl, ?_⟩
  · unfold total_loss
    rw [hkl]
  · intro logits label hne
    have hS : 0 < (logits.map Real.exp).sum := sum_map_exp_pos logits hne
    unfold sparse_softmax_cross_entropy softmax_prob
    rw [Real.log_div (ne_of_gt (Real.exp_pos _)) (ne_of_gt hS),
        Real.log_exp]
    ring

/-- Claim C5, witness: one batch row of two equal logits with target 0,
two layer KL values 1 and 2, and pi 3. -/
theorem C5_witness :
    total_loss [[0, 0]] [0] [1, 2] 3 =
      classification_loss [[0, 0]] [0] + 3 * ([1, 2] : List ℝ).sum ∧
    sparse_softmax_cross_entropy [0, 0] 0 =
      -Real.log (softmax_prob [0, 0] 0) := by
  have h := C5_loss_composition [[0, 0]] [0] [1, 2] 3
  exact ⟨h.1, h.2.2.2 [0, 0] 0 (by simp)⟩

/-! ### Claim C6 -/

/-- Claim C6: the hard-coded use_rnn flag makes construction pick the
convolutional branch for every size_sample; when size_sample has exactly
one axis the input shape gains two trailing singleton axes and becomes
rank 4, and otherwise the placeholder shape is passed through unchanged. -/
theorem C6_encoder_selection (batch : ℕ) (size_sample : List ℕ) :
    chosen_encoder size_sample = EncoderKind.cnn ∧
    (size_sample.length = 1 →
      cnn_input_shape batch size_sample =
        [batch, size_sample.headD 0, 1, 1] ∧
      (cnn_input_shape batch size_sample).length = 4) ∧
    (size_sample.length ≠ 1 →
      cnn_input_shape batch size_sample = input_shape batch size_sample) := by
  refine ⟨rfl, ?_, ?_⟩
  · intro h
    obtain ⟨d, rfl⟩ : ∃ d, size_sample = [d] := by
      cases size_sample with
      | nil => simp at h
      | cons a t =>
        cases t with
        | nil => exact ⟨a, rfl⟩
        | cons b u => simp at h
    constructor <;> rfl
  · intro h
    have hts : is_time_series size_sample = false := by
      simp only [is_time_series, beq_eq_false_iff_ne, ne_eq]
      exact h
    unfold cnn_input_shape
    rw [hts]
    simp

/-- Claim C6, witness: a one-axis sample of width 28 with batch 8 becomes
the rank-4 shape 8 x 28 x 1 x 1, and a two-axis 28 x 28 sample passes
through unchanged. -/
theorem C6_witness :
    chosen_encoder [28] = EncoderKind.cnn ∧
    cnn_input_shape 8 [28] = [8, 28, 1, 1] ∧
    (cnn_input_shape 8 [28]).length = 4 ∧
    cnn_input_shape 8 [28, 28] = input_shape 8 [28, 28] := by
  have h1 := C6_encoder_selection 8 [28]
  have h2 := C6_encoder_selection 8 [28, 28]
  exact ⟨h1.1, (h1.2.1 (by norm_num)).1, (h1.2.1 (by norm_num)).2,
         h2.2.2 (by norm_num)⟩

/-! ### Claim C8 -/

/-- Claim C8: after construction the restore_vars registry holds exactly
five tensors, in order the input placeholder, the target placeholder, the
predictions, the classification loss and the accuracy, and each of the
five is retrievable from the registry. -/
theorem C8_restore_registry :
    restore_vars_registered =
      [TensorRef.input, TensorRef.target, TensorRef.predictions,
       TensorRef.classification_loss, TensorRef.accuracy] ∧
    restore_vars_registered.length = 5 ∧
    (∀ v : TensorRef, v ∈ restore_vars_registered) := by
  refine ⟨rfl, rfl, ?_⟩
  intro v
  cases v <;> simp [restore_vars_registered, add_to_collection]

/-! ### Helper lemmas about argmax and the accuracy -/

/-- The entry at the argmax index bounds every entry of the list. -/
theorem argmax_getD (l : List ℚ) (j : ℕ) (hj : j < l.length) :
    l.getD j 0 ≤ l.getD (argmax l) 0 := by
  induction l generalizing j with
  | nil => simp at hj
  | cons x xs ih =>
    cases xs with
    | nil =>
      have hj0 : j = 0 := by
        simp only [List.length_cons, List.length_nil] at hj
        omega
      subst hj0
      simp [argmax]
    | cons y ys =>
      by_cases hx : x < (y :: ys).getD (argmax (y :: ys)) 0
      · have haeq : argmax (x :: y :: ys) = argmax (y :: ys) + 1 := by
          simp only [argmax]
          rw [if_pos hx]
        rw [haeq, List.getD_cons_succ]
        cases j with
        | zero =>
          rw [List.getD_cons_zero]
          exact le_of_lt hx
        | succ j2 =>
          rw [List.getD_cons_succ]
          refine ih j2 ?_
          simp only [List.length_cons] at hj ⊢
          omega
      · have haeq : argmax (x :: y :: ys) = 0 := by
          simp only [argmax]
          rw [if_neg hx]
        rw [haeq, List.getD_cons_zero]
        cases j with
        | zero => rw [List.getD_cons_zero]
        | succ j2 =>
          rw [List.getD_cons_succ]
          refine le_trans (ih j2 ?_) (le_of_not_lt hx)
          simp only [List.length_cons] at hj ⊢
          omega

/-- The sum of cast indicators is the number of true entries. -/
theorem sum_indicator_cast (bs : List Bool) :
    (bs.map indicator_cast).sum = (bs.count true : ℚ) := by
  induction bs with
  | nil => simp
  | cons b t ih =>
    cases b <;> simp [indicator_cast, ih, List.count_cons, add_comm]

/-- The indicator zip splits as a boolean zip followed by the cast. -/
theorem zipWith_indicator (logitsB : List (List ℚ)) (targets : List ℕ) :
    List.zipWith (fun l t => indicator_cast (argmax l == t)) logitsB targets =
      (List.zipWith (fun l t => argmax l == t) logitsB targets).map
        indicator_cast := by
  induction logitsB generalizing targets with
  | nil => simp
  | cons a tl ih =>
    cases targets with
    | nil => simp
    | cons b tb => simp [ih]

/-! ### Claim C9 -/

/-- Claim C9: the accuracy tensor equals the mean over the batch of the
indicator that the argmax over the class axis equals the integer target:
the fraction of batch rows on which the argmax of the logits equals the
target, where the argmax index carries the largest logit of the row. -/
theorem C9_accuracy (logitsB : List (List ℚ)) (targets : List ℕ)
    (h : logitsB.length = targets.length) :
    accuracy logitsB targets =
      ((List.zipWith (fun l t => argmax l == t) logitsB targets).count true :
        ℚ) / (logitsB.length : ℚ) ∧
    (∀ (l : List ℚ) (j : ℕ), j < l.length →
      l.getD j 0 ≤ l.getD (argmax l) 0) := by
  constructor
  · unfold accuracy reduce_mean
    rw [zipWith_indicator, sum_indicator_cast, List.length_map,
        List.length_zipWith, h, min_self]
  · intro l j hj
    exact argmax_getD l j hj

/-- Claim C9, witness: a batch of two rows of logits, the first predicting
class 1 correctly and the second predicting class 0 against target 1, and
the argmax bound on the first row. -/
theorem C9_witness :
    accuracy [[1, 3], [2, 0]] [1, 1] =
      ((List.zipWith (fun l t => argmax l == t)
          ([[1, 3], [2, 0]] : List (List ℚ)) [1, 1]).count true : ℚ) /
        (([[1, 3], [2, 0]] : List (List ℚ)).length : ℚ) ∧
    ([1, 3] : List ℚ).getD 0 0 ≤ ([1, 3] : List ℚ).getD (argmax [1, 3]) 0 := by
  have h := C9_accuracy [[1, 3], [2, 0]] [1, 1] (by norm_num)
  exact ⟨h.1, h.2 [1, 3] 0 (by norm_num)⟩

end WeightUncertainty
